import Mathlib

/-!
Verification of the `StringSplit` intrinsic function of the Step Functions
ASL interpreter (`localstack/services/stepfunctions/asl/component/intrinsic/
function/statesfunction/string_operations/string_split.py`).

The evaluation stack of the `Environment` is modelled as a `List Value` whose
head is the top of the stack.  `StringSplit._eval_body` is translated into
`evalBody`, which receives the values the argument evaluation pushes and the
stack below them, and returns either the final stack or the error raised
together with the stack as the exception leaves it (a Python `raise` does not
undo earlier `pop` mutations).

The call `re.split(pattern, string)` is Python standard library code; it is
translated for exactly the family of patterns this function builds: an
alternation `\c1|\c2|...|\ck` of single escaped characters (empty when
`delimiterChars` is empty).  Each alternative matches at most one character,
so the split semantics is: cut the string at every character matched by some
alternative.  The empty pattern (no alternatives) matches at every position,
and Python (3.7 and later) splits on empty matches, giving one cut before
every character and at both ends.  Unicode character classes (`\d`, `\w`,
`\s`, ...) are modelled on their ASCII subsets; every theorem below that
evaluates one does so on ASCII input, where the two notions agree.
-/

namespace StatesStringSplit

/-- Values that appear on the evaluation stack in the fragment under study:
JSON scalars, and the list-of-strings value that `re.split` returns and
`_eval_body` pushes. -/
inductive Value where
  | null : Value
  | bool : Bool → Value
  | int : Int → Value
  | str : String → Value
  | strList : List String → Value
deriving DecidableEq

/-- Errors `StringSplit` can raise.  `wrongArity` is the `ValueError` of
`__init__`; `notStringDelimiters` and `notStringValue` are the two
`ValueError`s of `_eval_body` (the second one is unreachable, see `evalBody`);
`badEscape` is the `re.error` raised when the built pattern contains a
reserved escape; `splitTypeError` is the `TypeError` `re.split` raises on a
non-string input; `popFromEmptyStack` is the `IndexError` of `list.pop()` on
an empty stack. -/
inductive Err where
  | wrongArity : Err
  | popFromEmptyStack : Err
  | notStringDelimiters : Err
  | notStringValue : Err
  | badEscape : Err
  | splitTypeError : Err
deriving DecidableEq

/-- Result of one run of `_eval_body`: the final stack on normal return, or
the raised error together with the stack at the moment of the raise. -/
inductive Outcome where
  | ok : List Value → Outcome
  | err : Err → List Value → Outcome
deriving DecidableEq

/-- Whether a run raised an error. -/
def Outcome.isErr : Outcome → Bool
  | .err _ _ => true
  | .ok _ => false

/-- Python `isinstance(v, str)`. -/
def Value.isStr : Value → Bool
  | .str _ => true
  | _ => false

/-- Characters of a string value; the evaluator reads it only after
`Value.isStr` has been checked. -/
def Value.strData : Value → List Char
  | .str s => s.data
  | _ => []

/-- Python `\w` on its ASCII subset: letters, digits and underscore. -/
def isWordChar (c : Char) : Bool :=
  c.isAlphanum || c == '_'

/-- Python `\s` on its ASCII subset. -/
def isPySpace (c : Char) : Bool :=
  c == ' ' || c == '\t' || c == '\n' || c == '\r' || c == '\x0b' || c == '\x0c'

/-- Meaning of the Python regex escape `\c` as a single-character matcher.
Escaping a non-alphanumeric character always yields that literal character.
For letters and digits, the escapes with an assigned single-character meaning
are listed; the remaining ones — the zero-width assertions `\b` `\B` `\A`
`\Z`, the reserved letter escapes (compile errors), the incomplete escapes
`\x` `\u` `\N` and the group references `\1`..`\9` (compile errors here, with
no group in the pattern) — denote no single-character matcher and map to
`none`.  The theorems below evaluate this bucket only through the fact that
evaluation does not succeed there. -/
def escMatcher (c : Char) : Option (Char → Bool) :=
  if c.isAlpha || c.isDigit then
    if c = 'd' then some Char.isDigit
    else if c = 'D' then some (fun x => !x.isDigit)
    else if c = 'w' then some isWordChar
    else if c = 'W' then some (fun x => !isWordChar x)
    else if c = 's' then some isPySpace
    else if c = 'S' then some (fun x => !isPySpace x)
    else if c = 'n' then some (fun x => x == '\n')
    else if c = 't' then some (fun x => x == '\t')
    else if c = 'r' then some (fun x => x == '\r')
    else if c = 'f' then some (fun x => x == '\x0c')
    else if c = 'v' then some (fun x => x == '\x0b')
    else if c = 'a' then some (fun x => x == '\x07')
    else if c = '0' then some (fun x => x == '\x00')
    else none
  else
    some (fun x => x == c)

/-- Compilation of the pattern `\c1|\c2|...|\ck` built by `_eval_body` from
the delimiter characters `c1 ... ck`: the list of the alternatives'
single-character matchers, or the compile error on the first escape with no
such matcher. -/
def compilePattern : List Char → Except Err (List (Char → Bool))
  | [] => .ok []
  | c :: cs =>
    match escMatcher c with
    | none => .error .badEscape
    | some m =>
      match compilePattern cs with
      | .error e => .error e
      | .ok ms => .ok (m :: ms)

/-- Cut a character list at every character satisfying `p`, keeping the
(possibly empty) segments between the cuts.  This is `re.split` for a
non-empty alternation of single-character matchers, scanning left to
right. -/
def splitBy (p : Char → Bool) : List Char → List (List Char)
  | [] => [[]]
  | c :: cs =>
    if p c then [] :: splitBy p cs
    else
      match splitBy p cs with
      | [] => [[c]]
      | g :: gs => (c :: g) :: gs

/-- Python `re.split` on the compiled pattern family: with no alternatives
the pattern is empty and matches at every position, so the string is cut
before every character and at both ends (Python 3.7+ splits on empty
matches); otherwise every alternative matches exactly one character and the
string is cut at each matched character. -/
def pySplit (ms : List (Char → Bool)) (s : List Char) : List String :=
  match ms with
  | [] => "" :: ((s.map fun c => String.mk [c]) ++ [""])
  | _ :: _ => (splitBy (fun c => ms.any fun m => m c) s).map fun l => String.mk l

/-- StringSplit.__init__: raises `ValueError` when the argument list does not
have size 2, otherwise constructs the instance. -/
def stringSplitInit (arg_list : List Value) : Except Err Unit :=
  if arg_list.length ≠ 2 then .error .wrongArity else .ok ()

/-- Lines 39-48 of `_eval_body`, after both pops: the source re-checks
`del_chars` instead of `string` (the second `isinstance` test in the source
reads `del_chars`, so with `del_chars` already validated that branch is
unreachable); then the pattern is built by escaping each delimiter character
and `re.split` runs — it first compiles the pattern, then type-checks its
input — and the resulting list of strings is pushed onto `stack`. -/
def splitAndPush (del_chars string : Value) (stack : List Value) : Outcome :=
  if del_chars.isStr = false then .err .notStringValue stack
  else
    match compilePattern del_chars.strData with
    | .error e => .err e stack
    | .ok ms =>
      match string with
      | .str s => .ok (.strList (pySplit ms s.data) :: stack)
      | _ => .err .splitTypeError stack

/-- StringSplit._eval_body.  `args` are the values the argument evaluation
`self.arg_list.eval(env)` pushes, left to right (so `args.reverse ++ stack`
is the stack it leaves); then: pop `del_chars` and check it is a string; pop
`string`; continue with `splitAndPush` (lines 39-48). -/
def evalBody (args : List Value) (stack : List Value) : Outcome :=
  match args.reverse ++ stack with
  | [] => .err .popFromEmptyStack []
  | del_chars :: rest =>
    if del_chars.isStr = false then .err .notStringDelimiters rest
    else
      match rest with
      | [] => .err .popFromEmptyStack []
      | string :: rest2 => splitAndPush del_chars string rest2

/-- Splitting a string at every occurrence of any of the given characters,
each character taken literally.  This is the behaviour the specification
ascribes to `StringSplit` ("splits `string` at every occurrence of any such
character", every delimiter character "treated literally"). -/
def literalCharSplit (delims : List Char) (s : List Char) : List String :=
  (splitBy (fun c => delims.any fun x => c == x) s).map fun l => String.mk l

/-- Join character-list segments with a separator between consecutive
segments. -/
def joinWith (sep : List Char) : List (List Char) → List Char
  | [] => []
  | [p] => p
  | p :: q :: ps => p ++ sep ++ joinWith sep (q :: ps)

/-- Join string segments with a separator between consecutive segments. -/
def sepJoin (sep : String) : List String → String
  | [] => ""
  | [p] => p
  | p :: q :: ps => p ++ sep ++ sepJoin sep (q :: ps)

/-- Modelled from the spec: the outer assembly of a top-level intrinsic call
consumes the single value the function body pushes ("pushes exactly one value
back for the caller (or for the outer assembly if this is the top-level
call)").  This consumer is not part of the source excerpt; it returns the
consumed result together with the caller's stack left after the whole
evaluation. -/
def topLevelEval (args : List Value) (stack : List Value) : Option (Value × List Value) :=
  match evalBody args stack with
  | .ok (r :: rest) => some (r, rest)
  | _ => none

/-! Helper lemmas. -/

/-- Escaping a character that is neither an ASCII letter nor an ASCII digit
yields the literal single-character matcher. -/
lemma escMatcher_lit (c : Char) (hA : c.isAlpha = false) (hD : c.isDigit = false) :
    escMatcher c = some (fun x => x == c) := by
  simp [escMatcher, hA, hD]

/-- Compiling a pattern whose delimiter characters are all non-alphanumeric
yields the literal matchers of those characters. -/
lemma compilePattern_lit (l : List Char)
    (h : ∀ c ∈ l, c.isAlpha = false ∧ c.isDigit = false) :
    compilePattern l = .ok (l.map fun c => fun x => x == c) := by
  induction l with
  | nil => rfl
  | cons c t ih =>
    have hc := h c (List.mem_cons_self c t)
    have ht := ih fun x hx => h x (List.mem_cons_of_mem c hx)
    simp [compilePattern, escMatcher_lit c hc.1 hc.2, ht]

/-- A compile error of the pattern family is always the bad-escape error. -/
lemma compilePattern_error (l : List Char) (e : Err)
    (h : compilePattern l = .error e) : e = .badEscape := by
  induction l with
  | nil => exact absurd h (by simp [compilePattern])
  | cons c t ih =>
    rw [compilePattern] at h
    cases hm : escMatcher c with
    | none => rw [hm] at h; exact (Except.error.injEq _ _).mp h.symm
    | some m =>
      rw [hm] at h
      cases ht : compilePattern t with
      | error e2 =>
        rw [ht] at h
        cases (Except.error.injEq _ _).mp h
        exact ih ht
      | ok ms => rw [ht] at h; exact absurd h (by simp)

/-- Cutting with pointwise-equal predicates gives equal segment lists. -/
lemma splitBy_congr (p q : Char → Bool) (h : ∀ x, p x = q x) (l : List Char) :
    splitBy p l = splitBy q l := by
  induction l with
  | nil => rfl
  | cons c cs ih => simp only [splitBy, h c, ih]

/-- Cutting always yields at least one segment. -/
lemma splitBy_ne_nil (p : Char → Bool) (l : List Char) : splitBy p l ≠ [] := by
  induction l with
  | nil => simp [splitBy]
  | cons c cs ih =>
    simp only [splitBy]
    split
    · simp
    · split <;> simp

/-- Matching against the literal matchers of a character list is membership in
that list. -/
lemma anyMap_lit (l : List Char) (x : Char) :
    ((l.map fun c => fun y => y == c).any fun m => m x) = (l.any fun c => x == c) := by
  induction l with
  | nil => rfl
  | cons c t ih => simp [ih]

/-- On a non-empty all-literal alternation, `re.split` is the literal
character split. -/
lemma pySplit_lit (l : List Char) (s : List Char) (hne : l ≠ []) :
    pySplit (l.map fun c => fun x => x == c) s = literalCharSplit l s := by
  cases l with
  | nil => exact absurd rfl hne
  | cons c t =>
    show (splitBy _ s).map _ = (splitBy _ s).map _
    rw [splitBy_congr _ _ (anyMap_lit (c :: t))]

/-- Evaluation of the body on exactly two argument values reduces to the
delimiter check followed by `splitAndPush`. -/
lemma evalBody_two (string del : Value) (stack : List Value) :
    evalBody [string, del] stack =
      if del.isStr = false then .err .notStringDelimiters (string :: stack)
      else splitAndPush del string stack := by
  cases del <;> rfl

/-- `splitAndPush` propagates a pattern-compilation error. -/
lemma splitAndPush_compile_err (d : String) (v : Value) (stack : List Value) (e : Err)
    (hcp : compilePattern d.data = .error e) :
    splitAndPush (.str d) v stack = .err e stack := by
  unfold splitAndPush
  simp only [Value.isStr, Value.strData]
  rw [if_neg (by simp), hcp]

/-- `splitAndPush` on a compiled pattern and a string input pushes the split
result. -/
lemma splitAndPush_ok_str (d s : String) (stack : List Value) (ms : List (Char → Bool))
    (hcp : compilePattern d.data = .ok ms) :
    splitAndPush (.str d) (.str s) stack = .ok (.strList (pySplit ms s.data) :: stack) := by
  unfold splitAndPush
  simp only [Value.isStr, Value.strData]
  rw [if_neg (by simp), hcp]

/-- `splitAndPush` on a compiled pattern and a non-string input raises the
`re.split` type error. -/
lemma splitAndPush_nonstr (d : String) (v : Value) (stack : List Value)
    (ms : List (Char → Bool)) (hcp : compilePattern d.data = .ok ms)
    (hv : v.isStr = false) :
    splitAndPush (.str d) v stack = .err .splitTypeError stack := by
  unfold splitAndPush
  simp only [Value.isStr, Value.strData]
  rw [if_neg (by simp), hcp]
  cases v with
  | str s => simp [Value.isStr] at hv
  | null => rfl
  | bool b => rfl
  | int n => rfl
  | strList l => rfl

/-- `splitAndPush` never raises the construction-time arity error. -/
lemma splitAndPush_ne_arity (del string : Value) (stack rest : List Value) :
    splitAndPush del string stack ≠ .err .wrongArity rest := by
  intro h
  unfold splitAndPush at h
  split at h
  · injection h with h3 h4
    exact Err.noConfusion h3
  · cases hcp : compilePattern del.strData with
    | error e =>
      rw [hcp] at h
      simp only [] at h
      injection h with h3 h4
      rw [compilePattern_error _ _ hcp] at h3
      exact Err.noConfusion h3
    | ok ms =>
      rw [hcp] at h
      cases string <;> simp_all

/-- Evaluation of the body on two string operands whose delimiter characters
are all non-alphanumeric: the pushed value is the literal character split. -/
lemma evalBody_lit (s d : String) (stack : List Value) (hne : d.data ≠ [])
    (h : ∀ c ∈ d.data, c.isAlpha = false ∧ c.isDigit = false) :
    evalBody [.str s, .str d] stack
      = .ok (.strList (literalCharSplit d.data s.data) :: stack) := by
  rw [evalBody_two, if_neg (by simp [Value.isStr]),
    splitAndPush_ok_str d s stack _ (compilePattern_lit d.data h),
    pySplit_lit d.data s.data hne]

/-- Prepending a character to the head segment commutes with joining. -/
lemma joinWith_cons_head (sep : List Char) (a : Char) (g : List Char)
    (gs : List (List Char)) :
    joinWith sep ((a :: g) :: gs) = a :: joinWith sep (g :: gs) := by
  cases gs with
  | nil => rfl
  | cons q qs => simp [joinWith]

/-- Round trip at the character level: joining the cuts at a character `c`
with `c` itself restores the list. -/
lemma joinWith_splitBy (c : Char) (l : List Char) :
    joinWith [c] (splitBy (fun x => x == c) l) = l := by
  induction l with
  | nil => rfl
  | cons a t ih =>
    obtain ⟨g, gs, hg⟩ := List.exists_cons_of_ne_nil (splitBy_ne_nil (fun x => x == c) t)
    rw [hg] at ih
    by_cases h : (a == c) = true
    · rw [splitBy, if_pos h, hg]
      show [] ++ [c] ++ joinWith [c] (g :: gs) = a :: t
      rw [ih, List.nil_append]
      exact congrArg (· :: t) (eq_of_beq h).symm
    · rw [splitBy, if_neg h, hg, joinWith_cons_head, ih]

/-- Joining string segments is joining their character lists. -/
lemma sepJoin_map_mk (sep : List Char) (parts : List (List Char)) :
    sepJoin (String.mk sep) (parts.map String.mk) = String.mk (joinWith sep parts) := by
  induction parts with
  | nil => rfl
  | cons p ps ih =>
    cases ps with
    | nil => rfl
    | cons q qs =>
      show String.mk p ++ String.mk sep ++ sepJoin (String.mk sep) (List.map String.mk (q :: qs))
        = String.mk (joinWith sep (p :: q :: qs))
      rw [ih]
      rfl

/-! Claim theorems. -/

/-- C1 counterexample: with delimiter string "d" the escaped alternative is
the digit character class, not the literal letter `d`, so the string "a1b" is
cut at the digit `1` instead of being returned whole — the claimed
treat-every-delimiter-character-literally behaviour fails. -/
theorem stringSplit_alnum_delims_not_literal_cex :
    evalBody [.str "a1b", .str "d"] []
      ≠ .ok [.strList (literalCharSplit "d".data "a1b".data)] := by decide

/-- C1 (amended): for every string `s` and every non-empty delimiter string
`d` all of whose characters are non-alphanumeric, evaluating StringSplit
splits `s` exactly at the occurrences of the individual characters of `d`,
each treated literally, and pushes the resulting ordered sequence of
substrings. -/
theorem stringSplit_literal_on_nonalnum_delims (s d : String) (stack : List Value)
    (hne : d ≠ "") (h : ∀ c ∈ d.data, c.isAlpha = false ∧ c.isDigit = false) :
    evalBody [.str s, .str d] stack
      = .ok (.strList (literalCharSplit d.data s.data) :: stack) := by
  refine evalBody_lit s d stack (fun hd => hne ?_) h
  cases d
  cases hd
  rfl

/-- Witness for C1 (amended) at `s` = "x,y", `d` = ",". -/
theorem stringSplit_literal_on_nonalnum_delims_witness :
    (("," : String) ≠ "") ∧
      evalBody [.str "x,y", .str ","] [] = .ok [.strList ["x", "y"]] :=
  ⟨by decide,
    (stringSplit_literal_on_nonalnum_delims "x,y" "," [] (by decide) (by decide)).trans
      (by decide)⟩

/-- C2 counterexample: with the empty delimiter string the built pattern is
empty, and Python splits on its empty matches, so the pushed sequence is not
the claimed single-element sequence ["abc"]. -/
theorem stringSplit_empty_delims_cex :
    evalBody [.str "abc", .str ""] [] ≠ .ok [.strList ["abc"]] := by decide

/-- C2 (amended): evaluating StringSplit with the string operand "abc" and
the empty string as the delimiter operand succeeds and pushes the sequence
["", "a", "b", "c", ""] — the empty alternation pattern matches at every
position, cutting before every character and at both ends. -/
theorem stringSplit_empty_delims_result :
    evalBody [.str "abc", .str ""] [] = .ok [.strList ["", "a", "b", "c", ""]] := by
  decide

/-- C3: evaluating StringSplit fails with an error whenever the string
operand (popped second) is not a string.  The source's second `isinstance`
check re-reads `del_chars` and cannot fire, but `re.split` itself raises a
`TypeError` on every non-string input, so evaluation still fails. -/
theorem stringSplit_nonstring_input_errors (v : Value) (d : String) (stack : List Value)
    (h : v.isStr = false) : (evalBody [v, .str d] stack).isErr = true := by
  rw [evalBody_two, if_neg (by simp [Value.isStr])]
  cases hcp : compilePattern d.data with
  | error e =>
    rw [splitAndPush_compile_err _ _ _ _ hcp]
    rfl
  | ok ms =>
    rw [splitAndPush_nonstr _ _ _ _ hcp h]
    rfl

/-- Witness for C3 at the integer string-operand 0. -/
theorem stringSplit_nonstring_input_errors_witness :
    (Value.int 0).isStr = false ∧ (evalBody [.int 0, .str ","] []).isErr = true :=
  ⟨by decide, stringSplit_nonstring_input_errors (.int 0) "," [] (by decide)⟩

/-- C4 (code bug): when the delimiter operand is not a string, `_eval_body`
raises after popping only that operand, so the string operand remains on the
stack — the stack is not restored to its pre-evaluation depth (here: empty),
contradicting the no-residue invariant. -/
theorem stringSplit_error_leaves_residue :
    evalBody [.str "a,b", .int 1] [] = .err .notStringDelimiters [.str "a,b"] ∧
      ([Value.str "a,b"] : List Value) ≠ [] := by decide

/-- C5: evaluating StringSplit on "a,b;;c" with delimiter string ",;" pushes
["a", "b", "", "c"]; the adjacent delimiters `;;` yield an empty segment. -/
theorem stringSplit_adjacent_delims_segments :
    evalBody [.str "a,b;;c", .str ",;"] [] = .ok [.strList ["a", "b", "", "c"]] := by
  decide

/-- C6: the delimiter operand (pushed last) is popped and validated first —
if it is not a string, evaluation fails with the delimiter type error while
the string operand is still on the stack (it was never popped); if it is a
string, the delimiter type error can no longer arise. -/
theorem stringSplit_pop_order (w v : Value) (stack : List Value) :
    (v.isStr = false → evalBody [w, v] stack = .err .notStringDelimiters (w :: stack)) ∧
      (∀ d : String, v = .str d → ∀ (e : Err) (rest : List Value),
        evalBody [w, v] stack = .err e rest → e ≠ .notStringDelimiters) := by
  constructor
  · intro h
    rw [evalBody_two, if_pos h]
  · intro d hv e rest h
    subst hv
    rw [evalBody_two, if_neg (by simp [Value.isStr])] at h
    cases hcp : compilePattern d.data with
    | error e2 =>
      rw [splitAndPush_compile_err _ _ _ _ hcp] at h
      injection h with h3 h4
      rw [← h3, compilePattern_error _ _ hcp]
      decide
    | ok ms =>
      cases w with
      | str s =>
        rw [splitAndPush_ok_str _ _ _ _ hcp] at h
        exact Outcome.noConfusion h
      | null =>
        rw [splitAndPush_nonstr d Value.null stack ms hcp rfl] at h
        injection h with h3 h4
        rw [← h3]
        decide
      | bool b =>
        rw [splitAndPush_nonstr d (Value.bool b) stack ms hcp rfl] at h
        injection h with h3 h4
        rw [← h3]
        decide
      | int n =>
        rw [splitAndPush_nonstr d (Value.int n) stack ms hcp rfl] at h
        injection h with h3 h4
        rw [← h3]
        decide
      | strList l =>
        rw [splitAndPush_nonstr d (Value.strList l) stack ms hcp rfl] at h
        injection h with h3 h4
        rw [← h3]
        decide

/-- Witness for C6 at a non-string delimiter operand. -/
theorem stringSplit_pop_order_witness :
    (Value.int 5).isStr = false ∧
      evalBody [.str "a", .int 5] [] = .err .notStringDelimiters [.str "a"] :=
  ⟨by decide, (stringSplit_pop_order (.str "a") (.int 5) []).1 (by decide)⟩

/-- C7: a successful evaluation of StringSplit has net stack effect pop 2,
push 1 — the final stack is exactly one result on top of the unchanged
original stack, and the spec-modelled outer assembly that consumes the
result leaves the stack at exactly its original depth and contents. -/
theorem stringSplit_net_stack_effect (a1 a2 : Value) (stack tl : List Value)
    (h : evalBody [a1, a2] stack = .ok tl) :
    ∃ r, tl = r :: stack ∧ topLevelEval [a1, a2] stack = some (r, stack) := by
  have horig := h
  rw [evalBody_two] at h
  cases a2 with
  | null => simp [Value.isStr] at h
  | bool b => simp [Value.isStr] at h
  | int n => simp [Value.isStr] at h
  | strList l => simp [Value.isStr] at h
  | str d =>
    rw [if_neg (by simp [Value.isStr])] at h
    cases hcp : compilePattern d.data with
    | error e =>
      rw [splitAndPush_compile_err _ _ _ _ hcp] at h
      exact Outcome.noConfusion h
    | ok ms =>
      cases a1 with
      | str s =>
        rw [splitAndPush_ok_str _ _ _ _ hcp] at h
        injection h with h3
        subst h3
        refine ⟨Value.strList (pySplit ms s.data), rfl, ?_⟩
        unfold topLevelEval
        rw [horig]
      | null =>
        rw [splitAndPush_nonstr d Value.null stack ms hcp rfl] at h
        exact Outcome.noConfusion h
      | bool b =>
        rw [splitAndPush_nonstr d (Value.bool b) stack ms hcp rfl] at h
        exact Outcome.noConfusion h
      | int n =>
        rw [splitAndPush_nonstr d (Value.int n) stack ms hcp rfl] at h
        exact Outcome.noConfusion h
      | strList l =>
        rw [splitAndPush_nonstr d (Value.strList l) stack ms hcp rfl] at h
        exact Outcome.noConfusion h

/-- Witness for C7 on a successful evaluation from the empty stack. -/
theorem stringSplit_net_stack_effect_witness :
    ∃ r, [Value.strList ["a", "b"]] = r :: ([] : List Value) ∧
      topLevelEval [.str "a,b", .str ","] [] = some (r, []) :=
  stringSplit_net_stack_effect (.str "a,b") (.str ",") [] [.strList ["a", "b"]] (by decide)

/-- C8: constructing a StringSplit instance fails exactly when the argument
list's size is not 2, and the arity is never re-checked during evaluation of
the body — no run of the body raises the arity error, whatever the argument
values and the stack. -/
theorem stringSplit_arity_at_construction (arg_list : List Value) :
    (stringSplitInit arg_list = .ok () ↔ arg_list.length = 2) ∧
      ∀ (args stack rest : List Value), evalBody args stack ≠ .err .wrongArity rest := by
  constructor
  · constructor
    · intro h
      by_contra hne
      simp [stringSplitInit, hne] at h
    · intro h
      simp [stringSplitInit, h]
  · intro args stack rest h
    unfold evalBody at h
    split at h
    · injection h with h3 h4
      exact Err.noConfusion h3
    · split at h
      · injection h with h3 h4
        exact Err.noConfusion h3
      · split at h
        · injection h with h3 h4
          exact Err.noConfusion h3
        · exact splitAndPush_ne_arity _ _ _ _ h

/-- Witness for C8 at a well-sized argument list and a concrete body run. -/
theorem stringSplit_arity_at_construction_witness :
    (stringSplitInit [Value.null, Value.null] = .ok ()
        ↔ ([Value.null, Value.null] : List Value).length = 2) ∧
      evalBody [Value.null] [] ≠ .err .wrongArity [] :=
  ⟨(stringSplit_arity_at_construction [Value.null, Value.null]).1,
    (stringSplit_arity_at_construction [Value.null, Value.null]).2 [Value.null] [] []⟩

/-- C9: for every string `s` and every single non-alphanumeric, non-underscore
delimiter character `c`, StringSplit pushes segments whose join with `c` as
the separator is `s` again. -/
theorem stringSplit_single_delim_round_trip (s : String) (c : Char)
    (hA : c.isAlpha = false) (hD : c.isDigit = false) (_hU : c ≠ '_') :
    evalBody [.str s, .str (String.singleton c)] []
        = .ok [.strList (literalCharSplit [c] s.data)] ∧
      sepJoin (String.singleton c) (literalCharSplit [c] s.data) = s := by
  constructor
  · exact evalBody_lit s (String.singleton c) [] (by simp)
      (fun x hx => by
        rw [show (String.singleton c).data = [c] from rfl, List.mem_singleton] at hx
        rw [hx]
        exact ⟨hA, hD⟩)
  · rw [literalCharSplit,
      splitBy_congr _ (fun x => x == c) (fun x => by simp) s.data,
      show String.singleton c = String.mk [c] from rfl,
      sepJoin_map_mk, joinWith_splitBy]

/-- Witness for C9 at `s` = "a,b" and `c` = the comma. -/
theorem stringSplit_single_delim_round_trip_witness :
    evalBody [.str "a,b", .str (String.singleton ',')] []
        = .ok [.strList (literalCharSplit [','] "a,b".data)] ∧
      sepJoin (String.singleton ',') (literalCharSplit [','] "a,b".data) = "a,b" :=
  stringSplit_single_delim_round_trip "a,b" ',' (by decide) (by decide) (by decide)

/-- C10: StringSplit evaluation is deterministic — two runs of the body from
equal argument values and equal stacks produce equal outcomes (equal pushed
results and equal final stacks, also on the error paths). -/
theorem stringSplit_deterministic (args1 args2 stack1 stack2 : List Value)
    (ha : args1 = args2) (hs : stack1 = stack2) :
    evalBody args1 stack1 = evalBody args2 stack2 := by
  rw [ha, hs]

/-- Witness for C10 at a concrete pair of equal runs. -/
theorem stringSplit_deterministic_witness :
    evalBody [.str "x", .str ","] [] = evalBody [.str "x", .str ","] [] :=
  stringSplit_deterministic [.str "x", .str ","] [.str "x", .str ","] [] [] rfl rfl

end StatesStringSplit
